import Mathlib

/-!
Verification development for the local-provider lifecycle layer of the
repository (Claude Code / Ollama provider utilities, handlers, and the
streaming session manager described by the design documents).

The TypeScript sources are embedded shallowly: filesystem and process
effects become fields of an explicit `Env` record (a function
`String → Bool` for `existsSync`, `Except`-valued fields for `execSync`
calls that may throw, and so on), and each source function becomes a
total Lean function over `Env`.  JavaScript string operations are
modelled character-exactly on `String.data`.
-/

namespace DyadSpec

/-- Model of the JavaScript `String.prototype.endsWith` check. -/
def jsEndsWith (s post : String) : Bool :=
  post.data.isSuffixOf s.data

/-- Model of the JavaScript `String.prototype.includes` substring check. -/
def jsIncludes (s sub : String) : Bool :=
  decide (sub.data <:+: s.data)

/-- Model of the `withoutTrailingSlash` helper from `@ai-sdk/provider-utils`:
`url.replace(/\/$/, "")` removes one trailing slash character. -/
def withoutTrailingSlash (s : String) : String :=
  if jsEndsWith s "/" then String.mk s.data.dropLast else s

/-- Model of node `path.join` for the two-segment joins used by the source. -/
def pjoin (a b : String) : String :=
  a ++ "/" ++ b

/-- Value of `os.platform()` in the host process. -/
inductive Platform
  | darwin
  | linux
  | win32
  | other
deriving DecidableEq, BEq, Repr

/-- Value of the `mcpServers` field of a parsed `settings.json`: a truthy
value is either a JSON array of names or an object whose keys are taken. -/
inductive McpValue
  | arr (names : List String)
  | obj (keys : List String)
deriving DecidableEq, Repr

/-- Parsed `ClaudeCodeSettings` from `settings.json`; `models` is `some`
exactly when the field is present and an array, `mcpServers` is `some`
exactly when the field is present and truthy. -/
structure ClaudeCodeSettings where
  models : Option (List String)
  mcpServers : Option McpValue
deriving DecidableEq, Repr

/-- The ambient process and filesystem state read by the provider
utilities.  Each field models one external effect of the source:
`pathExists` is `existsSync`; `whichClaude` is the trimmed output of
`execSync("which claude")`, `none` when the command throws;
`versionQuery p` is the trimmed output of `execSync(p ++ " --version")`;
`npmInstall useSudo` and `cluUpdate` are the install and update
subprocess runs, `Except.error` carrying the caught `error.message`;
`readdir` is `readdirSync` (`none` = throws); `isDir` is
`statSync(..).isDirectory()` (`none` = throws); `parseSettings` is the
parse result of the settings file (`none` = read or parse throws);
`envPort` is `process.env.CLAUDE_CODE_PORT`. -/
structure Env where
  manualPath : Option String
  platform : Platform
  home : String
  pathExists : String → Bool
  whichClaude : Option String
  versionQuery : String → Option String
  npmInstall : Bool → Except String String
  cluUpdate : Except String String
  readdir : String → Option (List String)
  isDir : String → Option Bool
  parseSettings : Option ClaudeCodeSettings
  envPort : Option String

/-- The `CLAUDE_CODE_PATHS` candidate table, resolved for a platform and
home directory; platforms absent from the table yield `[]` (the
source's `|| []`). -/
def claudeCodePaths (p : Platform) (home : String) : List String :=
  match p with
  | .darwin =>
    [ pjoin home ".claude/claude", pjoin home ".claude/bin/claude",
      "/usr/local/bin/claude", pjoin home ".local/bin/claude",
      pjoin home "bin/claude" ]
  | .linux =>
    [ pjoin home ".claude/claude", pjoin home ".claude/bin/claude",
      "/usr/local/bin/claude", pjoin home ".local/bin/claude",
      pjoin home "bin/claude" ]
  | .win32 => ["C:\\Windows\\System32\\wsl.exe"]
  | .other => []

/-- Auto-detection tail of `detectClaudeCodePath`: the win32 early
return, the candidate-path walk, and the `which claude` fallback
(its result used only when nonempty, truthy in JS, and existing). -/
def detectClaudeCodePathAuto (e : Env) : Option String :=
  if e.platform == .win32 then none
  else
    match (claudeCodePaths e.platform e.home).find? e.pathExists with
    | some p => some p
    | none =>
      match e.whichClaude with
      | some w => if w != "" && e.pathExists w then some w else none
      | none => none

/-- Embedding of `detectClaudeCodePath`: the manual path wins when it is
truthy (nonempty) and exists on disk, otherwise auto-detection runs. -/
def detectClaudeCodePath (e : Env) : Option String :=
  match e.manualPath with
  | some p =>
    if p != "" && e.pathExists p then some p
    else detectClaudeCodePathAuto e
  | none => detectClaudeCodePathAuto e

/-- Embedding of `isClaudeCodeInstalled`. -/
def isClaudeCodeInstalled (e : Env) : Bool :=
  detectClaudeCodePath e != none

/-- Embedding of `getClaudeCodeVersion`: `none` both when no path is
found and when the version subprocess throws (caught in the source). -/
def getClaudeCodeVersion (e : Env) : Option String :=
  match detectClaudeCodePath e with
  | none => none
  | some p => e.versionQuery p

/-- Result record of `getClaudeCodeInstallationInfo`. -/
structure ClaudeCodeInstallationInfo where
  installed : Bool
  path : Option String
  version : Option String
deriving DecidableEq, Repr

/-- Embedding of `getClaudeCodeInstallationInfo`. -/
def getClaudeCodeInstallationInfo (e : Env) : ClaudeCodeInstallationInfo :=
  let path := detectClaudeCodePath e
  let installed := path != none
  { installed := installed
    path := path
    version := if installed then getClaudeCodeVersion e else none }

/-- Result record of `installClaudeCode` and `updateClaudeCode`. -/
structure InstallResult where
  success : Bool
  output : String
  error : Option String
deriving DecidableEq, Repr

/-- The permission-denied guidance string of `installClaudeCode`. -/
def permissionDeniedMessage : String :=
  "Permission denied. Please try again with sudo (requires password)."

/-- Embedding of `installClaudeCode`: a failing npm run is classified by
substring match on the caught message. -/
def installClaudeCode (e : Env) (useSudo : Bool) : InstallResult :=
  match e.npmInstall useSudo with
  | .ok out => { success := true, output := out.trim, error := none }
  | .error msg =>
    if jsIncludes msg "EACCES" || jsIncludes msg "permission denied" then
      { success := false, output := "", error := some permissionDeniedMessage }
    else
      { success := false, output := "", error := some msg }

/-- Embedding of `updateClaudeCode`: detection runs first and a missing
installation short-circuits before the `clu update` subprocess. -/
def updateClaudeCode (e : Env) : InstallResult :=
  match detectClaudeCodePath e with
  | none => { success := false, output := "", error := some "Claude Code is not installed" }
  | some _ =>
    match e.cluUpdate with
    | .ok out => { success := true, output := out.trim, error := none }
    | .error msg => { success := false, output := "", error := some msg }

/-- Capability summary record of `detectClaudeCodeCapabilities`. -/
structure ClaudeCodeCapabilities where
  mcpServers : List String
  skills : List String
  plugins : List String
  agents : List String
  subAgents : List String
  models : List String
deriving DecidableEq, Repr

/-- Embedding of `listDirectories`: a missing path or a throwing
`readdirSync` yields `[]` (caught in the source), and a throwing
`statSync` drops only that entry. -/
def listDirectories (e : Env) (dirPath : String) : List String :=
  if e.pathExists dirPath then
    match e.readdir dirPath with
    | some items => items.filter (fun item => (e.isDir (pjoin dirPath item)).getD false)
    | none => []
  else []

/-- Embedding of `readClaudeCodeSettings`: `none` when the settings file
is absent or its read or parse throws (caught in the source). -/
def readClaudeCodeSettings (e : Env) : Option ClaudeCodeSettings :=
  if e.pathExists (pjoin (pjoin e.home ".claude") "settings.json") then e.parseSettings
  else none

/-- The agents group of the capability scan: immediate subdirectories of
`~/.claude/agents` when that directory exists. -/
def agentsScan (e : Env) : List String :=
  let agentsDir := pjoin (pjoin e.home ".claude") "agents"
  if e.pathExists agentsDir then listDirectories e agentsDir else []

/-- The plugins group of the capability scan: immediate subdirectories of
`~/.claude/plugins` when that directory exists. -/
def pluginsScan (e : Env) : List String :=
  let pluginsDir := pjoin (pjoin e.home ".claude") "plugins"
  if e.pathExists pluginsDir then listDirectories e pluginsDir else []

/-- The models group of the capability scan: `settings.models` when the
settings parse succeeded and the field is an array. -/
def settingsModels (e : Env) : List String :=
  match readClaudeCodeSettings e with
  | some s =>
    match s.models with
    | some l => l
    | none => []
  | none => []

/-- The mcpServers group of the capability scan: `settings.mcpServers`
itself when it is an array, else its object keys, else `[]`. -/
def settingsMcpServers (e : Env) : List String :=
  match readClaudeCodeSettings e with
  | some s =>
    match s.mcpServers with
    | some (.arr names) => names
    | some (.obj keys) => keys
    | none => []
  | none => []

/-- Embedding of `detectClaudeCodeCapabilities`: `none` when detection
finds no executable or `~/.claude` is absent; otherwise the groupwise
scan, with `skills` and `subAgents` initialized empty and never
assigned by any code path. -/
def detectClaudeCodeCapabilities (e : Env) : Option ClaudeCodeCapabilities :=
  match detectClaudeCodePath e with
  | none => none
  | some _ =>
    if e.pathExists (pjoin e.home ".claude") then
      some { mcpServers := settingsMcpServers e
             skills := []
             plugins := pluginsScan e
             agents := agentsScan e
             subAgents := []
             models := settingsModels e }
    else none

/-- One entry of the fixed model list of `fetchClaudeCodeModels`. -/
structure LocalModel where
  modelName : String
  displayName : String
  provider : String
deriving DecidableEq, Repr

/-- The fixed list of Anthropic models returned by `fetchClaudeCodeModels`. -/
def claudeCodeModels : List LocalModel :=
  [ { modelName := "claude-sonnet-4.5", displayName := "Claude Sonnet 4.5", provider := "claudecode" },
    { modelName := "claude-sonnet-4", displayName := "Claude Sonnet 4", provider := "claudecode" },
    { modelName := "claude-opus-4", displayName := "Claude Opus 4", provider := "claudecode" },
    { modelName := "claude-haiku-4", displayName := "Claude Haiku 4", provider := "claudecode" } ]

/-- Embedding of `fetchClaudeCodeModels`: throws (modelled as
`Except.error`) when Claude Code is not installed, else the fixed list. -/
def fetchClaudeCodeModels (e : Env) : Except String (List LocalModel) :=
  if isClaudeCodeInstalled e then .ok claudeCodeModels
  else .error "Claude Code is not installed. Please install Claude Code CLI first."

/-- Embedding of `getClaudeCodeBaseUrl`:
`process.env.CLAUDE_CODE_PORT || 3000` interpolated after `localhost:`,
the empty string being falsy in JS. -/
def getClaudeCodeBaseUrl (e : Env) : String :=
  "http://localhost:" ++
    (match e.envPort with
     | some p => if p != "" then p else "3000"
     | none => "3000")

/-- Base-URL resolution of `createClaudeCodeProvider`: the configured
override when present, else `getClaudeCodeBaseUrl`, then trailing-slash
stripping and the `/v1` suffix unless already present. -/
def claudeCodeV1Base (e : Env) (baseURL : Option String) : String :=
  let base := withoutTrailingSlash (baseURL.getD (getClaudeCodeBaseUrl e))
  if jsEndsWith base "/v1" then base else base ++ "/v1"

/-- Base-URL resolution of `createOllamaProvider`: the configured
override when present, else `http://localhost:11434`, then trailing-slash
stripping and the `/v1` suffix unless already present. -/
def ollamaV1Base (baseURL : Option String) : String :=
  let base := withoutTrailingSlash (baseURL.getD "http://localhost:11434")
  if jsEndsWith base "/v1" then base else base ++ "/v1"

/-- Modelled from the spec: base-address resolution as §4.5 words it,
"configurable override, else a provider-specific default". -/
def specResolvedBase (override : Option String) (dflt : String) : String :=
  match override with
  | some b => b
  | none => dflt

/-- Modelled from the spec: normalization to the transport path suffix as
the claim words it, stripping a trailing slash and appending `/v1`
unless the address already ends with `/v1`. -/
def specNormalizeV1 (addr : String) : String :=
  let stripped := if jsEndsWith addr "/" then String.mk addr.data.dropLast else addr
  if jsEndsWith stripped "/v1" then stripped else stripped ++ "/v1"

/-- Modelled from the spec: Session status set of §3; the Session
Manager implementation is not under `src/` (only its design notes in
`ClaudeCodeConfiguration.tsx` and the `StreamingTokenBudget` UI consumer
are), so the manager is modelled from the spec. -/
inductive SessionStatus
  | active
  | aborted
  | completed
  | failed
deriving DecidableEq, Repr

/-- Modelled from the spec: the Session entity of §3 with the attributes
the exclusivity invariant mentions, plus cumulative usage. -/
structure Session where
  sessionId : Nat
  conversationId : Nat
  status : SessionStatus
  usage : Nat
deriving DecidableEq, Repr

/-- Whether a session is in the `Active` status. -/
def Session.isActive (s : Session) : Bool :=
  match s.status with
  | .active => true
  | _ => false

/-- Modelled from the spec: the Session Manager state, the active-session
table plus the fresh-identifier counter (terminal sessions are removed
from the table immediately, §3 lifecycle). -/
structure SMState where
  sessions : List Session
  nextId : Nat
deriving Repr

/-- The initial Session Manager state: empty table. -/
def initSM : SMState :=
  { sessions := [], nextId := 0 }

/-- Whether a session is Active for the given conversation identifier. -/
def isActiveFor (conv : Nat) (s : Session) : Bool :=
  s.conversationId == conv && s.isActive

/-- Modelled from the spec: `start` of §4.6 fails with `ConversationBusy`
(`none`) when an Active session exists for the conversation, else
registers a fresh Active session and returns its identifier. -/
def startSession (st : SMState) (conv : Nat) : SMState × Option Nat :=
  if st.sessions.any (isActiveFor conv) then (st, none)
  else
    ({ sessions := { sessionId := st.nextId, conversationId := conv,
                     status := .active, usage := 0 } :: st.sessions
       nextId := st.nextId + 1 },
     some st.nextId)

/-- Modelled from the spec: chunk processing of §4.6 appends usage to the
matching Active session; a chunk for an absent (already terminal,
hence deregistered) session is discarded. -/
def processChunk (st : SMState) (sid usage : Nat) : SMState :=
  { st with
    sessions := st.sessions.map (fun s =>
      if s.sessionId == sid && s.isActive then { s with usage := s.usage + usage } else s) }

/-- Deregistration: removal of the session from the active-session table,
performed at every terminal transition per the §5 cleanup discipline. -/
def deregister (st : SMState) (sid : Nat) : SMState :=
  { st with sessions := st.sessions.filter (fun s => !(s.sessionId == sid)) }

/-- Modelled from the spec: `abort` of §4.6 fails with `UnknownSession`
(`false`) when the session is absent or terminal, else transitions it
to `Aborted` and deregisters it. -/
def abortSession (st : SMState) (sid : Nat) : SMState × Bool :=
  if st.sessions.any (fun s => s.sessionId == sid) then (deregister st sid, true)
  else (st, false)

/-- Modelled from the spec: natural stream end of §4.6, the `Completed`
transition followed by deregistration. -/
def completeSession (st : SMState) (sid : Nat) : SMState :=
  deregister st sid

/-- Modelled from the spec: transport-error handling of §4.6, the
`Failed` transition followed by deregistration. -/
def failSession (st : SMState) (sid : Nat) : SMState :=
  deregister st sid

/-- One Session Manager operation: start, chunk processing, abort,
stream end, or transport-error handling. -/
inductive SMCmd
  | start (conv : Nat)
  | chunk (sid usage : Nat)
  | abort (sid : Nat)
  | complete (sid : Nat)
  | fail (sid : Nat)

/-- The state transition of one Session Manager operation. -/
def smStep (st : SMState) (c : SMCmd) : SMState :=
  match c with
  | .start conv => (startSession st conv).1
  | .chunk sid usage => processChunk st sid usage
  | .abort sid => (abortSession st sid).1
  | .complete sid => completeSession st sid
  | .fail sid => failSession st sid

/-- Execution of a command sequence from the initial state; its results
are exactly the reachable Session Manager states. -/
def smRun (cmds : List SMCmd) : SMState :=
  cmds.foldl smStep initSM

/-- The exclusivity invariant: at most one Active session per
conversation identifier. -/
def smInv (st : SMState) : Prop :=
  ∀ conv : Nat, st.sessions.countP (isActiveFor conv) ≤ 1

/-- A concrete environment in which nothing is installed: no manual
path, no candidate path exists, and the `which` probe throws. -/
def envEmpty : Env :=
  { manualPath := none
    platform := .linux
    home := "/home/u"
    pathExists := fun _ => false
    whichClaude := none
    versionQuery := fun _ => none
    npmInstall := fun _ => .error "npm ERR! network unreachable"
    cluUpdate := .error "clu: command not found"
    readdir := fun _ => none
    isDir := fun _ => none
    parseSettings := none
    envPort := none }

/-- A concrete environment with Claude Code at `/usr/local/bin/claude`. -/
def envInstalled : Env :=
  { envEmpty with
    pathExists := fun p => p == "/usr/local/bin/claude"
    versionQuery := fun _ => some "1.0.0" }

/-- A concrete installed environment whose plugins directory and settings
file are readable while the agents directory exists but its listing
throws. -/
def envPartial : Env :=
  { envEmpty with
    pathExists := fun p =>
      p == "/usr/local/bin/claude" || p == "/home/u/.claude" ||
      p == "/home/u/.claude/agents" || p == "/home/u/.claude/plugins" ||
      p == "/home/u/.claude/settings.json" || p == "/home/u/.claude/plugins/toolA"
    readdir := fun d => if d == "/home/u/.claude/plugins" then some ["toolA"] else none
    isDir := fun q => if q == "/home/u/.claude/plugins/toolA" then some true else none
    parseSettings := some { models := some ["glm-4.6"], mcpServers := some (.obj ["filesystem"]) } }

/-- A concrete installed environment whose agents directory and settings
file are readable while the plugins directory exists but its listing
throws. -/
def envPartialPlugins : Env :=
  { envEmpty with
    pathExists := fun p =>
      p == "/usr/local/bin/claude" || p == "/home/u/.claude" ||
      p == "/home/u/.claude/agents" || p == "/home/u/.claude/plugins" ||
      p == "/home/u/.claude/settings.json" || p == "/home/u/.claude/agents/agentA"
    readdir := fun d => if d == "/home/u/.claude/agents" then some ["agentA"] else none
    isDir := fun q => if q == "/home/u/.claude/agents/agentA" then some true else none
    parseSettings := some { models := some ["glm-4.6"], mcpServers := some (.obj ["filesystem"]) } }

/-- A concrete installed environment whose agents and plugins directories
are readable while the settings file exists but its read throws. -/
def envPartialSettings : Env :=
  { envEmpty with
    pathExists := fun p =>
      p == "/usr/local/bin/claude" || p == "/home/u/.claude" ||
      p == "/home/u/.claude/agents" || p == "/home/u/.claude/plugins" ||
      p == "/home/u/.claude/settings.json" || p == "/home/u/.claude/agents/agentA" ||
      p == "/home/u/.claude/plugins/toolA"
    readdir := fun d =>
      if d == "/home/u/.claude/agents" then some ["agentA"]
      else if d == "/home/u/.claude/plugins" then some ["toolA"]
      else none
    isDir := fun q =>
      if q == "/home/u/.claude/agents/agentA" || q == "/home/u/.claude/plugins/toolA" then
        some true
      else none
    parseSettings := none }

/-- A concrete environment whose manual override points at a nonexistent
path while an auto-detected candidate exists. -/
def envManualBad : Env :=
  { envEmpty with
    manualPath := some "/nope"
    pathExists := fun p => p == "/usr/local/bin/claude" }

/-- A concrete environment whose manual override exists on disk and an
auto-detected candidate also exists. -/
def envManualGood : Env :=
  { envEmpty with
    manualPath := some "/opt/claude"
    pathExists := fun p => p == "/opt/claude" || p == "/usr/local/bin/claude" }

/-- A concrete environment whose npm install fails with a
permission-denied message. -/
def envPermFail : Env :=
  { envInstalled with
    npmInstall := fun _ => .error "npm ERR! EACCES: permission denied, access /usr/local/lib" }

/-!  Theorems settling the claims. -/

/-- C2: provider detection never throws to the caller (the embedding is
total, every subprocess throw being caught in the source), and when the
manual override is unset, no candidate path exists, and the `which
claude` probe fails, `getClaudeCodeInstallationInfo` returns
`{installed := false, path := none, version := none}`. -/
theorem detection_absence_not_error (e : Env)
    (hman : e.manualPath = none)
    (hpaths : ∀ p ∈ claudeCodePaths e.platform e.home, e.pathExists p = false)
    (hwhich : e.whichClaude = none) :
    getClaudeCodeInstallationInfo e =
      { installed := false, path := none, version := none } := by
  have hfind : (claudeCodePaths e.platform e.home).find? e.pathExists = none := by
    rw [List.find?_eq_none]
    intro p hp
    simp [hpaths p hp]
  have hdet : detectClaudeCodePath e = none := by
    unfold detectClaudeCodePath
    rw [hman]
    show detectClaudeCodePathAuto e = none
    unfold detectClaudeCodePathAuto
    rw [hfind, hwhich]
    split <;> rfl
  simp [getClaudeCodeInstallationInfo, hdet]

/-- Witness for C2 at the concrete empty environment. -/
theorem detection_absence_not_error_witness :
    getClaudeCodeInstallationInfo envEmpty =
      { installed := false, path := none, version := none } :=
  detection_absence_not_error envEmpty rfl (by decide) rfl

/-- C3 counterexample: in `envManualBad` the manual override is set to
`/nope`, which does not exist on disk, and detection returns the
auto-detected candidate instead of the manual path. -/
theorem manual_path_not_always_returned :
    envManualBad.manualPath = some "/nope" ∧
    detectClaudeCodePath envManualBad ≠ some "/nope" ∧
    detectClaudeCodePath envManualBad = some "/usr/local/bin/claude" := by
  decide

/-- C3 amended: when the manual override is set to a nonempty path that
exists on the filesystem, `detectClaudeCodePath` returns it in
preference to every auto-detected candidate and to the `which`
fallback. -/
theorem manual_path_priority (e : Env) (p : String)
    (hman : e.manualPath = some p) (hne : p ≠ "") (hex : e.pathExists p = true) :
    detectClaudeCodePath e = some p := by
  unfold detectClaudeCodePath
  rw [hman]
  have hb : (p != "") = true := bne_iff_ne.mpr hne
  simp [hb, hex]

/-- Witness for the amended C3 at a concrete environment where both the
manual path and an auto-detected candidate exist. -/
theorem manual_path_priority_witness :
    detectClaudeCodePath envManualGood = some "/opt/claude" :=
  manual_path_priority envManualGood "/opt/claude" rfl (by decide) (by decide)

/-- C4: when detection reports the provider absent, `updateClaudeCode`
returns the not-installed failure result, and the result is the same
whatever the external `clu update` subprocess would have produced, so
the update command is never consulted. -/
theorem update_fails_fast_when_absent (e : Env)
    (h : detectClaudeCodePath e = none) :
    updateClaudeCode e =
      { success := false, output := "", error := some "Claude Code is not installed" } ∧
    ∀ r : Except String String,
      updateClaudeCode { e with cluUpdate := r } =
        { success := false, output := "", error := some "Claude Code is not installed" } := by
  have hd : ∀ r : Except String String,
      detectClaudeCodePath { e with cluUpdate := r } = detectClaudeCodePath e :=
    fun _ => rfl
  constructor
  · unfold updateClaudeCode
    rw [h]
  · intro r
    unfold updateClaudeCode
    rw [hd r, h]

/-- Witness for C4 at the concrete empty environment. -/
theorem update_fails_fast_when_absent_witness :
    updateClaudeCode envEmpty =
      { success := false, output := "", error := some "Claude Code is not installed" } :=
  (update_fails_fast_when_absent envEmpty rfl).1

/-- C5: every failing npm run of `installClaudeCode` yields
`success := false`, with the elevated-retry guidance exactly when the
caught message matches the permission-denied signature (`EACCES` or
`permission denied`), and the raw caught message attached otherwise. -/
theorem install_failure_classified (e : Env) (useSudo : Bool) (msg : String)
    (h : e.npmInstall useSudo = .error msg) :
    (installClaudeCode e useSudo).success = false ∧
    installClaudeCode e useSudo =
      (if jsIncludes msg "EACCES" || jsIncludes msg "permission denied" then
        { success := false, output := "", error := some permissionDeniedMessage }
      else
        { success := false, output := "", error := some msg }) := by
  have heq : installClaudeCode e useSudo =
      (if jsIncludes msg "EACCES" || jsIncludes msg "permission denied" then
        { success := false, output := "", error := some permissionDeniedMessage }
      else
        { success := false, output := "", error := some msg }) := by
    unfold installClaudeCode
    rw [h]
  refine ⟨?_, heq⟩
  rw [heq]
  split <;> rfl

/-- Witness for C5 at a concrete environment whose npm run fails with an
`EACCES` message. -/
theorem install_failure_classified_witness :
    installClaudeCode envPermFail false =
      { success := false, output := "", error := some permissionDeniedMessage } := by
  have h := install_failure_classified envPermFail false
    "npm ERR! EACCES: permission denied, access /usr/local/lib" rfl
  exact h.2.trans (by decide)

/-- C6: when detection returns no path, `detectClaudeCodeCapabilities`
returns `none`, and the result stays `none` whatever the
capability-scan effects (`readdirSync`, `statSync`, settings parse)
would have produced, so no capability scan is performed. -/
theorem capabilities_none_when_not_installed (e : Env)
    (h : detectClaudeCodePath e = none) :
    detectClaudeCodeCapabilities e = none ∧
    ∀ (rd : String → Option (List String)) (d : String → Option Bool)
      (ps : Option ClaudeCodeSettings),
      detectClaudeCodeCapabilities
        { e with readdir := rd, isDir := d, parseSettings := ps } = none := by
  have hd : ∀ (rd : String → Option (List String)) (d : String → Option Bool)
      (ps : Option ClaudeCodeSettings),
      detectClaudeCodePath { e with readdir := rd, isDir := d, parseSettings := ps } =
        detectClaudeCodePath e :=
    fun _ _ _ => rfl
  constructor
  · unfold detectClaudeCodeCapabilities
    rw [h]
  · intro rd d ps
    unfold detectClaudeCodeCapabilities
    rw [hd rd d ps, h]

/-- Witness for C6 at the concrete empty environment. -/
theorem capabilities_none_when_not_installed_witness :
    detectClaudeCodeCapabilities envEmpty = none :=
  (capabilities_none_when_not_installed envEmpty rfl).1

/-- C7: for an installed provider, any one unreadable group source — the
agents directory, the plugins directory, or the settings file — yields
an empty set for exactly that group while the other groups carry their
own normal scan results; the unreadable group never aborts the scan. -/
theorem capability_scan_tolerates_unreadable_group (e : Env) (p : String)
    (hdet : detectClaudeCodePath e = some p)
    (hdir : e.pathExists (pjoin e.home ".claude") = true) :
    (e.readdir (pjoin (pjoin e.home ".claude") "agents") = none →
      detectClaudeCodeCapabilities e =
        some { mcpServers := settingsMcpServers e, skills := [],
               plugins := pluginsScan e, agents := [], subAgents := [],
               models := settingsModels e }) ∧
    (e.readdir (pjoin (pjoin e.home ".claude") "plugins") = none →
      detectClaudeCodeCapabilities e =
        some { mcpServers := settingsMcpServers e, skills := [],
               plugins := [], agents := agentsScan e, subAgents := [],
               models := settingsModels e }) ∧
    (e.parseSettings = none →
      detectClaudeCodeCapabilities e =
        some { mcpServers := [], skills := [],
               plugins := pluginsScan e, agents := agentsScan e, subAgents := [],
               models := [] }) := by
  have hbase : detectClaudeCodeCapabilities e =
      some { mcpServers := settingsMcpServers e, skills := [],
             plugins := pluginsScan e, agents := agentsScan e, subAgents := [],
             models := settingsModels e } := by
    unfold detectClaudeCodeCapabilities
    rw [hdet]
    simp [hdir]
  refine ⟨?_, ?_, ?_⟩
  · intro hagents
    have hag : agentsScan e = [] := by
      simp [agentsScan, listDirectories, hagents]
    rw [hbase, hag]
  · intro hplugins
    have hpl : pluginsScan e = [] := by
      simp [pluginsScan, listDirectories, hplugins]
    rw [hbase, hpl]
  · intro hps
    have hset : readClaudeCodeSettings e = none := by
      simp [readClaudeCodeSettings, hps]
    have hm : settingsModels e = [] := by
      simp [settingsModels, hset]
    have hmc : settingsMcpServers e = [] := by
      simp [settingsMcpServers, hset]
    rw [hbase, hm, hmc]

/-- Witness for C7 at three concrete installed environments, one per
unreadable group source: a throwing agents listing, a throwing plugins
listing, and a throwing settings read. -/
theorem capability_scan_tolerates_unreadable_group_witness :
    detectClaudeCodeCapabilities envPartial =
      some { mcpServers := ["filesystem"], skills := [], plugins := ["toolA"],
             agents := [], subAgents := [], models := ["glm-4.6"] } ∧
    detectClaudeCodeCapabilities envPartialPlugins =
      some { mcpServers := ["filesystem"], skills := [], plugins := [],
             agents := ["agentA"], subAgents := [], models := ["glm-4.6"] } ∧
    detectClaudeCodeCapabilities envPartialSettings =
      some { mcpServers := [], skills := [], plugins := ["toolA"],
             agents := ["agentA"], subAgents := [], models := [] } := by
  refine ⟨?_, ?_, ?_⟩
  · have h := (capability_scan_tolerates_unreadable_group envPartial
      "/usr/local/bin/claude" (by decide) (by decide)).1 (by decide)
    exact h.trans (by decide)
  · have h := (capability_scan_tolerates_unreadable_group envPartialPlugins
      "/usr/local/bin/claude" (by decide) (by decide)).2.1 (by decide)
    exact h.trans (by decide)
  · have h := (capability_scan_tolerates_unreadable_group envPartialSettings
      "/usr/local/bin/claude" (by decide) (by decide)).2.2 (by decide)
    exact h.trans (by decide)

/-- C8: both transport adapters resolve the base network address as the
configured override when present, else the provider default, normalize
it exactly as the spec words it (strip a trailing slash, append `/v1`
unless already present), and the resulting base URL always ends with
`/v1`. -/
theorem provider_base_url_normalization (e : Env) (baseURL : Option String) :
    ollamaV1Base baseURL =
      specNormalizeV1 (specResolvedBase baseURL "http://localhost:11434") ∧
    claudeCodeV1Base e baseURL =
      specNormalizeV1 (specResolvedBase baseURL (getClaudeCodeBaseUrl e)) ∧
    jsEndsWith (ollamaV1Base baseURL) "/v1" = true ∧
    jsEndsWith (claudeCodeV1Base e baseURL) "/v1" = true := by
  have happ : ∀ s : String, jsEndsWith (s ++ "/v1") "/v1" = true := by
    intro s
    unfold jsEndsWith
    rw [String.data_append]
    exact List.isSuffixOf_iff_suffix.mpr (List.suffix_append _ _)
  have hnorm : ∀ base : String,
      jsEndsWith (if jsEndsWith base "/v1" then base else base ++ "/v1") "/v1" = true := by
    intro base
    split
    · assumption
    · exact happ base
  refine ⟨?_, ?_, hnorm _, hnorm _⟩
  · cases baseURL <;> rfl
  · cases baseURL <;> rfl

/-- C9: `fetchClaudeCodeModels` throws exactly when Claude Code is not
installed, and otherwise returns the fixed four-model list (the
sonnet-4.5, sonnet-4, opus-4 and haiku-4 entries, each with provider
`claudecode`), independent of any other environment state. -/
theorem fetch_models_fixed (e : Env) :
    (isClaudeCodeInstalled e = false →
      fetchClaudeCodeModels e =
        .error "Claude Code is not installed. Please install Claude Code CLI first.") ∧
    (isClaudeCodeInstalled e = true →
      fetchClaudeCodeModels e = .ok claudeCodeModels) ∧
    claudeCodeModels.map LocalModel.modelName =
      ["claude-sonnet-4.5", "claude-sonnet-4", "claude-opus-4", "claude-haiku-4"] ∧
    ∀ m ∈ claudeCodeModels, m.provider = "claudecode" := by
  refine ⟨?_, ?_, by decide, by decide⟩
  · intro h
    unfold fetchClaudeCodeModels
    rw [h]
    rfl
  · intro h
    unfold fetchClaudeCodeModels
    rw [h]
    rfl

/-- Witness for C9 at concrete installed and empty environments. -/
theorem fetch_models_fixed_witness :
    fetchClaudeCodeModels envInstalled = .ok claudeCodeModels ∧
    fetchClaudeCodeModels envEmpty =
      .error "Claude Code is not installed. Please install Claude Code CLI first." :=
  ⟨(fetch_models_fixed envInstalled).2.1 (by decide),
   (fetch_models_fixed envEmpty).1 (by decide)⟩

/-- C10: every non-`none` capability summary produced by
`detectClaudeCodeCapabilities` has empty `skills` and `subAgents`
groups, for every environment. -/
theorem capabilities_skills_subagents_empty (e : Env) (caps : ClaudeCodeCapabilities)
    (h : detectClaudeCodeCapabilities e = some caps) :
    caps.skills = [] ∧ caps.subAgents = [] := by
  unfold detectClaudeCodeCapabilities at h
  split at h
  · cases h
  · split at h
    · injection h with h'
      rw [← h']
      exact ⟨rfl, rfl⟩
    · cases h

/-- Witness for C10 at the concrete partially-readable environment. -/
theorem capabilities_skills_subagents_empty_witness :
    ({ mcpServers := ["filesystem"], skills := [], plugins := ["toolA"],
       agents := [], subAgents := [], models := ["glm-4.6"] } : ClaudeCodeCapabilities).skills = [] ∧
    ({ mcpServers := ["filesystem"], skills := [], plugins := ["toolA"],
       agents := [], subAgents := [], models := ["glm-4.6"] } : ClaudeCodeCapabilities).subAgents = [] :=
  capabilities_skills_subagents_empty envPartial _ (by decide)

/-- Deregistration only removes sessions, so every per-conversation
Active count can only drop. -/
theorem smInv_deregister (st : SMState) (sid : Nat) (h : smInv st) :
    smInv (deregister st sid) := by
  intro conv
  unfold deregister
  calc (st.sessions.filter (fun s => !(s.sessionId == sid))).countP (isActiveFor conv)
      = st.sessions.countP (fun s => isActiveFor conv s && !(s.sessionId == sid)) :=
        List.countP_filter _ _ _
    _ ≤ st.sessions.countP (isActiveFor conv) :=
        List.countP_mono_left (fun s _ hs => by
          rw [Bool.and_eq_true] at hs
          exact hs.1)
    _ ≤ 1 := h conv

/-- Chunk processing only updates the usage of the matching session, so
conversation identifiers and statuses are untouched. -/
theorem smInv_chunk (st : SMState) (sid usage : Nat) (h : smInv st) :
    smInv (processChunk st sid usage) := by
  intro conv
  unfold processChunk
  rw [List.countP_map]
  have hcomp :
      (isActiveFor conv ∘ fun s =>
        if s.sessionId == sid && s.isActive then { s with usage := s.usage + usage } else s) =
      isActiveFor conv := by
    funext s
    simp only [Function.comp]
    split <;> rfl
  rw [hcomp]
  exact h conv

/-- Starting a session checks the table first: a busy conversation is
rejected unchanged; otherwise the started conversation had Active
count zero and rises to one, all others unchanged. -/
theorem smInv_start (st : SMState) (conv : Nat) (h : smInv st) :
    smInv (startSession st conv).1 := by
  intro conv'
  unfold startSession
  split
  · exact h conv'
  · rename_i hbusy
    rw [Bool.not_eq_true] at hbusy
    simp only
    rw [List.countP_cons]
    by_cases hc :
        isActiveFor conv' { sessionId := st.nextId, conversationId := conv,
                            status := .active, usage := 0 } = true
    · have hconv : conv = conv' := by
        have h1 := hc
        unfold isActiveFor at h1
        rw [Bool.and_eq_true] at h1
        have h2 := h1.1
        simp only [beq_iff_eq] at h2
        exact h2
      subst hconv
      have hzero : st.sessions.countP (isActiveFor conv) = 0 := by
        rw [List.countP_eq_zero]
        exact List.any_eq_false.mp hbusy
      rw [hzero, if_pos hc]
    · rw [if_neg hc]
      simpa using h conv'

/-- C1: at most one Active session exists per conversation identifier in
every reachable Session Manager state, and every operation (start,
chunk processing, abort, stream end, transport-error handling)
preserves this invariant.  The Session Manager is absent from the
reviewed sources, so it is modelled from the spec (§3 Session
invariants, §4.6 state machine). -/
theorem session_exclusivity :
    (∀ (st : SMState) (c : SMCmd), smInv st → smInv (smStep st c)) ∧
    (∀ cmds : List SMCmd, smInv (smRun cmds)) := by
  have hstep : ∀ (st : SMState) (c : SMCmd), smInv st → smInv (smStep st c) := by
    intro st c h
    cases c with
    | start conv => exact smInv_start st conv h
    | chunk sid usage => exact smInv_chunk st sid usage h
    | abort sid =>
      show smInv (abortSession st sid).1
      unfold abortSession
      split
      · exact smInv_deregister st sid h
      · exact h
    | complete sid => exact smInv_deregister st sid h
    | fail sid => exact smInv_deregister st sid h
  have hinit : smInv initSM := by
    intro conv
    simp [initSM]
  have hrun : ∀ (cmds : List SMCmd) (st : SMState), smInv st → smInv (cmds.foldl smStep st) := by
    intro cmds
    induction cmds with
    | nil => exact fun st h => h
    | cons c cs ih => exact fun st h => ih _ (hstep st c h)
  exact ⟨hstep, fun cmds => hrun cmds initSM hinit⟩

/-- Witness for C1: the invariant instantiated after a concrete start
operation from the initial state. -/
theorem session_exclusivity_witness :
    ((smStep initSM (SMCmd.start 5)).sessions.countP (isActiveFor 5)) ≤ 1 :=
  session_exclusivity.1 initSM (SMCmd.start 5) (fun conv => by simp [initSM]) 5

end DyadSpec
